import Mathlib

/-!
# StarGuide presence/relay server — verification development

Shallow embedding of the Socket.IO relay in `server.js`: the
`connectedUsers` Map, the `userJoined` / `disconnect` / `chatMessage` /
`battleInvite` event handlers, and the `/api/users/online` and
`/api/progress` HTTP handlers.

Socket identifiers are modelled as naturals (socket.io ids are opaque
strings, unique per live connection).  User descriptors and message
payloads are opaque JSON values.  Following socket.io semantics, every
socket is a member of exactly one room, named by its own id (the server
never calls `socket.join`), and `socket.to(room).emit` delivers to the
members of `room` other than the sender, while `io.emit` delivers to all
connected sockets.
-/

namespace StarGuide

/-- JSON-like values, as far as the relay inspects them (it never looks
inside payloads, but the HTTP progress handler tests JS truthiness). -/
inductive Json where
  | null : Json
  | bool (b : Bool) : Json
  | num (n : Int) : Json
  | str (s : String) : Json
  | obj (fields : List (String × Json)) : Json

abbrev SocketId := Nat

abbrev UserData := Json

/-- Payload of a `battleInvite` event: the handler reads `data.targetUserId`
and forwards the whole payload. -/
structure InvitePayload where
  targetUserId : SocketId
  extra : Json

/-- Server state: the live transport connections and the `connectedUsers`
Map (modelled as an association list in insertion order, as a JS `Map`). -/
structure ServerState where
  connected : List SocketId
  connectedUsers : List (SocketId × UserData)

def initState : ServerState := ⟨[], []⟩

/-- `Map.prototype.has`. -/
def mapHas (m : List (SocketId × UserData)) (k : SocketId) : Bool :=
  m.any (fun p => p.1 == k)

/-- `Map.prototype.set`: overwrite in place if the key is present,
otherwise append (JS `Map` keeps insertion order on overwrite). -/
def mapSet (m : List (SocketId × UserData)) (k : SocketId) (v : UserData) :
    List (SocketId × UserData) :=
  if m.any (fun p => p.1 == k) then
    m.map (fun p => if p.1 == k then (k, v) else p)
  else m ++ [(k, v)]

/-- `Map.prototype.delete`: remove the entry with the given key, a no-op
when absent. -/
def mapDelete (m : List (SocketId × UserData)) (k : SocketId) :
    List (SocketId × UserData) :=
  m.filter (fun p => p.1 != k)

/-- `Map.prototype.get`. -/
def mapGet (m : List (SocketId × UserData)) (k : SocketId) : Option UserData :=
  (m.find? (fun p => p.1 == k)).map Prod.snd

/-- Keys of the registry. -/
def keysOf (m : List (SocketId × UserData)) : List SocketId :=
  m.map Prod.fst

/-- Client-originated events handled by `io.on('connection', ...)`. -/
inductive Event where
  | connect (sid : SocketId)
  | userJoined (sid : SocketId) (u : UserData)
  | disconnect (sid : SocketId)
  | chatMessage (sid : SocketId) (data : Json)
  | battleInvite (sid : SocketId) (data : InvitePayload)

/-- A server-to-client emission, with the set of sockets the transport
delivers it to. -/
inductive Outgoing where
  | onlineUsers (recipients : List SocketId) (count : Nat)
  | chatMessage (recipients : List SocketId) (data : Json)
  | battleInvite (recipients : List SocketId) (data : InvitePayload)

/-- One dispatch turn of the event loop: the handler for `e` runs to
completion, mutating the state and producing emissions.  Handlers other
than `connect` only fire for a currently connected socket (socket.io
registers them per live socket); an event from a dead socket is a no-op.

* `connect`: log only — no registry entry yet.
* `userJoined`: `connectedUsers.set(socket.id, userData)` then
  `io.emit('onlineUsers', connectedUsers.size)`.
* `disconnect`: `connectedUsers.delete(socket.id)` then
  `io.emit('onlineUsers', connectedUsers.size)`; the closing socket is no
  longer connected when the broadcast goes out.
* `chatMessage`: `io.emit('chatMessage', data)`.
* `battleInvite`: `socket.to(data.targetUserId).emit('battleInvite', data)`
  — delivered to the members of room `data.targetUserId` (exactly the
  socket with that id, when live) excluding the sender. -/
def step (s : ServerState) : Event → ServerState × List Outgoing
  | .connect sid => ({ s with connected := s.connected ++ [sid] }, [])
  | .userJoined sid u =>
      if sid ∈ s.connected then
        let m := mapSet s.connectedUsers sid u
        ({ s with connectedUsers := m }, [.onlineUsers s.connected m.length])
      else (s, [])
  | .disconnect sid =>
      if sid ∈ s.connected then
        let c := s.connected.filter (fun x => x != sid)
        let m := mapDelete s.connectedUsers sid
        ({ connected := c, connectedUsers := m }, [.onlineUsers c m.length])
      else (s, [])
  | .chatMessage sid data =>
      if sid ∈ s.connected then (s, [.chatMessage s.connected data])
      else (s, [])
  | .battleInvite sid data =>
      if sid ∈ s.connected then
        (s, [.battleInvite
              (s.connected.filter (fun c => c != sid && c == data.targetUserId))
              data])
      else (s, [])

/-- Replay a sequence of events, keeping only the final state. -/
def exec (s : ServerState) : List Event → ServerState
  | [] => s
  | e :: rest => exec (step s e).1 rest

/-- A trace the transport can actually produce: a `connect` carries a
fresh id (socket.io ids are unique among live sockets), every other event
comes from a currently connected socket. -/
def admissible (s : ServerState) : List Event → Bool
  | [] => true
  | e :: rest =>
      (match e with
       | .connect sid => !(decide (sid ∈ s.connected))
       | .userJoined sid _ => decide (sid ∈ s.connected)
       | .disconnect sid => decide (sid ∈ s.connected)
       | .chatMessage sid _ => decide (sid ∈ s.connected)
       | .battleInvite sid _ => decide (sid ∈ s.connected))
      && admissible (step s e).1 rest

/-- No `userJoined` arrives from a socket that is already registered. -/
def noRejoin (s : ServerState) : List Event → Bool
  | [] => true
  | e :: rest =>
      (match e with
       | .userJoined sid _ => !(mapHas s.connectedUsers sid)
       | _ => true)
      && noRejoin (step s e).1 rest

/-- Number of `userJoined` events in a trace. -/
def countJoins : List Event → Nat
  | [] => 0
  | .userJoined _ _ :: rest => countJoins rest + 1
  | _ :: rest => countJoins rest

/-- Number of `disconnect` events of sockets that were registered (had
joined) at the moment of the disconnect. -/
def countDiscJoined (s : ServerState) : List Event → Nat
  | [] => 0
  | e :: rest =>
      (match e with
       | .disconnect sid => if mapHas s.connectedUsers sid then 1 else 0
       | _ => 0)
      + countDiscJoined (step s e).1 rest

/-- Well-formedness of a server state: live ids are distinct, registry
keys are distinct, and every registry key is a live connection. -/
structure GoodState (s : ServerState) : Prop where
  connNodup : s.connected.Nodup
  keysNodup : (keysOf s.connectedUsers).Nodup
  keysLive : ∀ k ∈ keysOf s.connectedUsers, k ∈ s.connected

/-! ## HTTP handlers -/

/-- An Express response: status code and JSON body. -/
structure HttpResponse where
  status : Nat
  body : Json

/-- Field lookup in a JSON object. -/
def Json.getField : Json → String → Option Json
  | .obj fields, k => fields.lookup k
  | _, _ => none

/-- `GET /api/users/online`: `res.json({ count: connectedUsers.size })`. -/
def usersOnlineHandler (s : ServerState) : HttpResponse :=
  ⟨200, .obj [("count", .num s.connectedUsers.length)]⟩

/-- JS truthiness, restricted to the values the model represents
(`null`, `false`, `0` and `""` are falsy; objects are truthy). -/
def Json.truthy : Json → Bool
  | .null => false
  | .bool b => b
  | .num n => n != 0
  | .str s => s != ""
  | .obj _ => true

/-- Truthiness of an optional field (`undefined` is falsy). -/
def truthyOpt : Option Json → Bool
  | none => false
  | some j => j.truthy

/-- Request body of `POST /api/progress`; a missing field is `none`. -/
structure ProgressBody where
  userId : Option Json
  progress : Option Json

/-- `POST /api/progress`: `if (!userId) 400; if (!progress) 400; else
res.json({ success: true, message: 'Progress saved' })`.  Pure in the
server state — nothing is persisted. -/
def progressHandler (b : ProgressBody) : HttpResponse :=
  if !truthyOpt b.userId then
    ⟨400, .obj [("error", .str "User ID is required")]⟩
  else if !truthyOpt b.progress then
    ⟨400, .obj [("error", .str "Progress data is required")]⟩
  else
    ⟨200, .obj [("success", .bool true), ("message", .str "Progress saved")]⟩

/-! ## Registry (JS `Map`) lemmas -/

theorem mapHas_iff {m : List (SocketId × UserData)} {k : SocketId} :
    mapHas m k = true ↔ k ∈ keysOf m := by
  simp [mapHas, keysOf, List.any_eq_true]

theorem mapSet_of_not_has {m : List (SocketId × UserData)} {k : SocketId}
    {v : UserData} (h : mapHas m k = false) :
    mapSet m k v = m ++ [(k, v)] := by
  unfold mapHas at h
  simp [mapSet, h]

theorem mapSet_of_has {m : List (SocketId × UserData)} {k : SocketId}
    {v : UserData} (h : mapHas m k = true) :
    mapSet m k v = m.map (fun p => if p.1 == k then (k, v) else p) := by
  unfold mapHas at h
  simp [mapSet, h]

theorem keysOf_mapSet_of_has {m : List (SocketId × UserData)} {k : SocketId}
    {v : UserData} (h : mapHas m k = true) :
    keysOf (mapSet m k v) = keysOf m := by
  rw [mapSet_of_has h]
  simp only [keysOf, List.map_map]
  apply List.map_congr_left
  intro p _
  by_cases hp : p.1 = k
  · simp [hp]
  · simp [hp]

theorem keysOf_mapSet_of_not_has {m : List (SocketId × UserData)} {k : SocketId}
    {v : UserData} (h : mapHas m k = false) :
    keysOf (mapSet m k v) = keysOf m ++ [k] := by
  rw [mapSet_of_not_has h]
  simp [keysOf]

theorem mapSet_length_of_has {m : List (SocketId × UserData)} {k : SocketId}
    {v : UserData} (h : mapHas m k = true) :
    (mapSet m k v).length = m.length := by
  rw [mapSet_of_has h]; simp

theorem mapSet_length_of_not_has {m : List (SocketId × UserData)} {k : SocketId}
    {v : UserData} (h : mapHas m k = false) :
    (mapSet m k v).length = m.length + 1 := by
  rw [mapSet_of_not_has h]; simp

theorem mapDelete_of_not_has {m : List (SocketId × UserData)} {k : SocketId}
    (h : mapHas m k = false) : mapDelete m k = m := by
  simp only [mapHas, List.any_eq_false] at h
  apply List.filter_eq_self.2
  intro p hp
  simpa using h p hp

theorem mapDelete_length_of_has {m : List (SocketId × UserData)} {k : SocketId}
    (hn : (keysOf m).Nodup) (h : mapHas m k = true) :
    (mapDelete m k).length + 1 = m.length := by
  induction m with
  | nil => simp [mapHas] at h
  | cons a t ih =>
    simp only [keysOf, List.map_cons, List.nodup_cons] at hn
    by_cases ha : a.1 = k
    · have ht : mapHas t k = false := by
        cases hmt : mapHas t k
        · rfl
        · exact absurd (mapHas_iff.1 hmt) (ha ▸ hn.1)
      have : mapDelete (a :: t) k = mapDelete t k := by
        simp [mapDelete, List.filter_cons, ha]
      rw [this, mapDelete_of_not_has ht]
      simp
    · have hk : mapHas t k = true := by
        have h' := h
        simp only [mapHas, List.any_cons, Bool.or_eq_true, beq_iff_eq] at h'
        rcases h' with h1 | h2
        · exact absurd h1 ha
        · exact h2
      have : mapDelete (a :: t) k = a :: mapDelete t k := by
        simp [mapDelete, List.filter_cons, ha]
      rw [this]
      simpa using ih hn.2 hk

theorem mem_keysOf_mapDelete {m : List (SocketId × UserData)} {k k' : SocketId}
    (h : k' ∈ keysOf (mapDelete m k)) : k' ∈ keysOf m ∧ k' ≠ k := by
  simp only [keysOf, mapDelete, List.mem_map] at h
  obtain ⟨p, hp, rfl⟩ := h
  have := List.mem_filter.1 hp
  refine ⟨List.mem_map.2 ⟨p, this.1, rfl⟩, by simpa using this.2⟩

theorem keysOf_mapDelete_nodup {m : List (SocketId × UserData)} {k : SocketId}
    (hn : (keysOf m).Nodup) : (keysOf (mapDelete m k)).Nodup :=
  ((List.filter_sublist m).map Prod.fst).nodup hn

theorem not_has_forall {m : List (SocketId × UserData)} {c : SocketId}
    (hm : mapHas m c = false) : ∀ p ∈ m, (p.1 == c) = false := by
  simp only [mapHas, List.any_eq_false] at hm
  intro p hp
  exact Bool.eq_false_iff.2 (hm p hp)

theorem mapHas_mapSet (m : List (SocketId × UserData)) (c : SocketId)
    (u : UserData) : mapHas (mapSet m c u) c = true := by
  cases hm : mapHas m c
  · rw [mapHas_iff, keysOf_mapSet_of_not_has hm]; simp
  · rw [mapHas_iff, keysOf_mapSet_of_has hm]; exact mapHas_iff.1 hm

theorem map_of_not_has {m : List (SocketId × UserData)} {c : SocketId}
    {v : UserData} (hm : mapHas m c = false) :
    m.map (fun p => if p.1 == c then (c, v) else p) = m := by
  conv_rhs => rw [← List.map_id m]
  apply List.map_congr_left
  intro p hp
  simp [not_has_forall hm p hp]

theorem mapSet_mapSet (m : List (SocketId × UserData)) (c : SocketId)
    (u v : UserData) : mapSet (mapSet m c u) c v = mapSet m c v := by
  cases hm : mapHas m c
  · rw [mapSet_of_not_has hm, mapSet_of_has (mapSet_of_not_has hm ▸ mapHas_mapSet m c u),
        mapSet_of_not_has hm]
    rw [List.map_append, map_of_not_has hm]
    simp
  · rw [mapSet_of_has hm, mapSet_of_has (mapSet_of_has hm ▸ mapHas_mapSet m c u),
        mapSet_of_has hm, List.map_map]
    apply List.map_congr_left
    intro p _
    by_cases hp : p.1 = c
    · simp [hp]
    · simp [hp]

theorem mapGet_cons (a : SocketId × UserData) (t : List (SocketId × UserData))
    (c : SocketId) :
    mapGet (a :: t) c = if a.1 == c then some a.2 else mapGet t c := by
  by_cases h : a.1 = c <;> simp [mapGet, List.find?_cons, h]

theorem mapGet_mapSet (m : List (SocketId × UserData)) (c : SocketId)
    (v : UserData) : mapGet (mapSet m c v) c = some v := by
  induction m with
  | nil => simp [mapSet, mapGet]
  | cons a t ih =>
    by_cases ha : a.1 = c
    · have hh : mapHas (a :: t) c = true := by simp [mapHas, ha]
      rw [mapSet_of_has hh]
      simp only [List.map_cons, ha, beq_self_eq_true, if_true]
      rw [mapGet_cons]
      simp
    · have hac : (a.1 == c) = false := by simp [ha]
      cases ht : mapHas t c
      · have hh : mapHas (a :: t) c = false := by
          simp only [mapHas, List.any_cons, hac, Bool.false_or]
          simpa [mapHas] using ht
        rw [mapSet_of_not_has hh, List.cons_append, mapGet_cons]
        rw [← mapSet_of_not_has ht] at *
        simp [hac, ih]
      · have hh : mapHas (a :: t) c = true := by
          simp only [mapHas, List.any_cons, hac, Bool.false_or]
          simpa [mapHas] using ht
        rw [mapSet_of_has hh]
        simp only [List.map_cons, hac, if_false]
        rw [mapGet_cons]
        rw [← mapSet_of_has ht]
        simp [hac, ih]

/-! ## Step projection lemmas -/

theorem step_connect_state (s : ServerState) (sid : SocketId) :
    (step s (.connect sid)).1 = { s with connected := s.connected ++ [sid] } :=
  rfl

theorem step_userJoined_state (s : ServerState) (sid : SocketId) (u : UserData)
    (h : sid ∈ s.connected) :
    (step s (.userJoined sid u)).1
      = { s with connectedUsers := mapSet s.connectedUsers sid u } := by
  simp [step, h]

theorem step_disconnect_state (s : ServerState) (sid : SocketId)
    (h : sid ∈ s.connected) :
    (step s (.disconnect sid)).1
      = ⟨s.connected.filter (fun x => x != sid),
         mapDelete s.connectedUsers sid⟩ := by
  simp [step, h]

theorem step_chatMessage_state (s : ServerState) (sid : SocketId) (d : Json) :
    (step s (.chatMessage sid d)).1 = s := by
  by_cases h : sid ∈ s.connected <;> simp [step, h]

theorem step_battleInvite_state (s : ServerState) (sid : SocketId)
    (d : InvitePayload) : (step s (.battleInvite sid d)).1 = s := by
  by_cases h : sid ∈ s.connected <;> simp [step, h]

/-! ## Invariant preservation -/

theorem goodState_init : GoodState initState :=
  ⟨List.nodup_nil, List.nodup_nil, by simp [initState, keysOf]⟩

theorem goodState_step {s : ServerState} (hg : GoodState s) (e : Event)
    (hc : ∀ sid, e = .connect sid → sid ∉ s.connected) :
    GoodState (step s e).1 := by
  cases e with
  | connect sid =>
      rw [step_connect_state]
      refine ⟨?_, hg.keysNodup, ?_⟩
      · have h := hc sid rfl
        simp [List.nodup_append, hg.connNodup, h]
      · intro k hk
        exact List.mem_append.2 (Or.inl (hg.keysLive k hk))
  | userJoined sid u =>
      by_cases h : sid ∈ s.connected
      · rw [step_userJoined_state s sid u h]
        cases hm : mapHas s.connectedUsers sid
        · refine ⟨hg.connNodup, ?_, ?_⟩
          · rw [keysOf_mapSet_of_not_has hm]
            have hs : sid ∉ keysOf s.connectedUsers := fun hmem =>
              by rw [mapHas_iff.2 hmem] at hm; cases hm
            simp [List.nodup_append, hg.keysNodup, hs]
          · intro k hk
            rw [keysOf_mapSet_of_not_has hm] at hk
            rcases List.mem_append.1 hk with h1 | h2
            · exact hg.keysLive k h1
            · have : k = sid := by simpa using h2
              exact this ▸ h
        · refine ⟨hg.connNodup, ?_, ?_⟩
          · rw [keysOf_mapSet_of_has hm]; exact hg.keysNodup
          · intro k hk
            rw [keysOf_mapSet_of_has hm] at hk
            exact hg.keysLive k hk
      · simpa [step, h] using hg
  | disconnect sid =>
      by_cases h : sid ∈ s.connected
      · rw [step_disconnect_state s sid h]
        refine ⟨hg.connNodup.filter _, keysOf_mapDelete_nodup hg.keysNodup, ?_⟩
        intro k hk
        obtain ⟨hk1, hk2⟩ := mem_keysOf_mapDelete hk
        exact List.mem_filter.2 ⟨hg.keysLive k hk1, by simpa using hk2⟩
      · simpa [step, h] using hg
  | chatMessage sid d => rw [step_chatMessage_state]; exact hg
  | battleInvite sid d => rw [step_battleInvite_state]; exact hg

theorem goodState_exec :
    ∀ (t : List Event) (s : ServerState), GoodState s →
      admissible s t = true → GoodState (exec s t) := by
  intro t
  induction t with
  | nil => intro s hg _; exact hg
  | cons e rest ih =>
      intro s hg ha
      simp only [admissible, Bool.and_eq_true] at ha
      simp only [exec]
      refine ih _ (goodState_step hg e ?_) ha.2
      intro sid he
      subst he
      simpa using ha.1

/-! ## Registry size accounting -/

theorem regSize_exec :
    ∀ (t : List Event) (s : ServerState), GoodState s →
      admissible s t = true → noRejoin s t = true →
      (exec s t).connectedUsers.length + countDiscJoined s t
        = s.connectedUsers.length + countJoins t := by
  intro t
  induction t with
  | nil => intro s _ _ _; simp [exec, countDiscJoined, countJoins]
  | cons e rest ih =>
      intro s hg ha hj
      simp only [admissible, Bool.and_eq_true] at ha
      simp only [noRejoin, Bool.and_eq_true] at hj
      have hstep : GoodState (step s e).1 :=
        goodState_step hg e (by intro sid he; subst he; simpa using ha.1)
      have IH := ih (step s e).1 hstep ha.2 hj.2
      cases e with
      | connect sid =>
          simp only [exec, countDiscJoined, countJoins]
          rw [step_connect_state] at IH ⊢
          simp only at IH ⊢
          omega
      | userJoined sid u =>
          have hmem : sid ∈ s.connected := by simpa using ha.1
          have hnot : mapHas s.connectedUsers sid = false := by
            simpa using hj.1
          simp only [exec, countDiscJoined, countJoins]
          rw [step_userJoined_state s sid u hmem] at IH ⊢
          simp only at IH
          rw [mapSet_length_of_not_has hnot] at IH
          omega
      | disconnect sid =>
          have hmem : sid ∈ s.connected := by simpa using ha.1
          simp only [exec, countDiscJoined, countJoins]
          rw [step_disconnect_state s sid hmem] at IH ⊢
          cases hm : mapHas s.connectedUsers sid
          · rw [mapDelete_of_not_has hm] at IH ⊢
            simpa [hm] using IH
          · have hlen := mapDelete_length_of_has hg.keysNodup hm
            simp only at IH
            simp only [hm, if_true]
            omega
      | chatMessage sid d =>
          simp only [exec, countDiscJoined, countJoins]
          rw [step_chatMessage_state] at IH ⊢
          omega
      | battleInvite sid d =>
          simp only [exec, countDiscJoined, countJoins]
          rw [step_battleInvite_state] at IH ⊢
          omega

/-! ## Claims about the relay -/

/-- C1: a `battleInvite` sent by a connected client with
`targetUserId = X` is emitted with its payload only to the connection
whose session identifier equals `X`; if no live connection has
identifier `X` the emit is a silent no-op (no recipient, no error or
acknowledgment back to the sender, no state change), and no third
connection ever receives it.  When `X` is live and distinct from the
sender, `X` does receive it. -/
theorem battleInvite_routed_only_to_target (s : ServerState) (sid : SocketId)
    (d : InvitePayload) (h : sid ∈ s.connected) :
    (step s (.battleInvite sid d)).1 = s ∧
    ∃ R, (step s (.battleInvite sid d)).2 = [.battleInvite R d] ∧
      (∀ c ∈ R, c = d.targetUserId) ∧
      (d.targetUserId ∉ s.connected → R = []) ∧
      (d.targetUserId ∈ s.connected → d.targetUserId ≠ sid →
        d.targetUserId ∈ R) := by
  refine ⟨step_battleInvite_state s sid d,
    s.connected.filter (fun c => c != sid && c == d.targetUserId),
    by simp [step, h], ?_, ?_, ?_⟩
  · intro c hc
    have h2 := (List.mem_filter.1 hc).2
    simp only [Bool.and_eq_true, bne_iff_ne, beq_iff_eq] at h2
    exact h2.2
  · intro htgt
    apply List.filter_eq_nil_iff.2
    intro c hc hcp
    simp only [Bool.and_eq_true, bne_iff_ne, beq_iff_eq] at hcp
    exact htgt (hcp.2 ▸ hc)
  · intro htgt hne
    exact List.mem_filter.2 ⟨htgt, by simp [hne]⟩

/-- C1 witness: in a state with live connections 0, 1, 2 and sender 0,
an invite targeting 2 satisfies the routing property. -/
theorem battleInvite_routed_only_to_target_witness :
    (0 : SocketId) ∈ (ServerState.mk [0, 1, 2] []).connected ∧
    ((step (ServerState.mk [0, 1, 2] [])
        (.battleInvite 0 ⟨2, .null⟩)).1 = ServerState.mk [0, 1, 2] [] ∧
     ∃ R, (step (ServerState.mk [0, 1, 2] [])
        (.battleInvite 0 ⟨2, .null⟩)).2 = [.battleInvite R ⟨2, .null⟩] ∧
       (∀ c ∈ R, c = (2 : SocketId)) ∧
       ((2 : SocketId) ∉ (ServerState.mk [0, 1, 2] []).connected → R = []) ∧
       ((2 : SocketId) ∈ (ServerState.mk [0, 1, 2] []).connected →
         (2 : SocketId) ≠ 0 → (2 : SocketId) ∈ R) ) :=
  ⟨by decide,
   battleInvite_routed_only_to_target (ServerState.mk [0, 1, 2] []) 0
     ⟨2, .null⟩ (by decide)⟩

/-- C2: a `chatMessage` with payload `p` from a connected client is
broadcast verbatim to every currently connected client, the sender
included, and the state is unchanged. -/
theorem chatMessage_broadcast_verbatim (s : ServerState) (sid : SocketId)
    (d : Json) (h : sid ∈ s.connected) :
    (step s (.chatMessage sid d)).1 = s ∧
    (step s (.chatMessage sid d)).2 = [.chatMessage s.connected d] ∧
    sid ∈ s.connected :=
  ⟨step_chatMessage_state s sid d, by simp [step, h], h⟩

/-- C2 witness: sender 1 in a two-connection state. -/
theorem chatMessage_broadcast_verbatim_witness :
    (1 : SocketId) ∈ (ServerState.mk [0, 1] []).connected ∧
    ((step (ServerState.mk [0, 1] []) (.chatMessage 1 .null)).1
        = ServerState.mk [0, 1] [] ∧
     (step (ServerState.mk [0, 1] []) (.chatMessage 1 .null)).2
        = [.chatMessage [0, 1] .null] ∧
     (1 : SocketId) ∈ (ServerState.mk [0, 1] []).connected) :=
  ⟨by decide,
   chatMessage_broadcast_verbatim (ServerState.mk [0, 1] []) 1 .null (by decide)⟩

/-- C10: an invite whose `targetUserId` equals the sender's own id is
delivered to nobody, the sender included: `socket.to(room)` excludes the
sender, and the sender's own room is the only room named by its id. -/
theorem battleInvite_self_never_delivered (s : ServerState) (sid : SocketId)
    (d : InvitePayload) (h : sid ∈ s.connected) (ht : d.targetUserId = sid) :
    (step s (.battleInvite sid d)).2 = [.battleInvite [] d] := by
  have hnil : s.connected.filter (fun c => c != sid && c == d.targetUserId)
      = [] := by
    apply List.filter_eq_nil_iff.2
    intro c hc hcp
    simp only [Bool.and_eq_true, bne_iff_ne, beq_iff_eq] at hcp
    exact hcp.1 (ht ▸ hcp.2)
  simp [step, h, hnil]

/-- C10 witness: sender 0 invites its own id in a two-connection state. -/
theorem battleInvite_self_never_delivered_witness :
    (0 : SocketId) ∈ (ServerState.mk [0, 1] []).connected ∧
    (InvitePayload.mk 0 .null).targetUserId = (0 : SocketId) ∧
    (step (ServerState.mk [0, 1] []) (.battleInvite 0 ⟨0, .null⟩)).2
      = [.battleInvite [] ⟨0, .null⟩] :=
  ⟨by decide, rfl,
   battleInvite_self_never_delivered (ServerState.mk [0, 1] []) 0 ⟨0, .null⟩
     (by decide) rfl⟩

/-- C3 counterexample: after a single transport connect with no join,
one connection is open but the registry is empty, so the registry's
cardinality differs from the number of open connections. -/
theorem registry_size_ne_open_connections :
    admissible initState [Event.connect 0] = true ∧
    ¬((exec initState [Event.connect 0]).connectedUsers.length
        = (exec initState [Event.connect 0]).connected.length) := by
  decide

/-- C3 (amended): in every reachable state, every registry entry
corresponds to exactly one live connection (its key is a live connection
id and keys are pairwise distinct), and the registry's cardinality is at
most — not equal to — the number of open connections; a connection that
has not yet joined is open but unregistered. -/
theorem registry_entries_live_and_bounded (t : List Event)
    (h : admissible initState t = true) :
    (∀ k ∈ keysOf (exec initState t).connectedUsers,
        k ∈ (exec initState t).connected) ∧
    (keysOf (exec initState t).connectedUsers).Nodup ∧
    (exec initState t).connectedUsers.length
      ≤ (exec initState t).connected.length := by
  have hg := goodState_exec t initState goodState_init h
  refine ⟨hg.keysLive, hg.keysNodup, ?_⟩
  have hsub : keysOf (exec initState t).connectedUsers
      ⊆ (exec initState t).connected := fun k hk => hg.keysLive k hk
  have hle := (List.subperm_of_subset hg.keysNodup hsub).length_le
  simpa [keysOf] using hle

/-- C3 witness: connect–join–connect leaves one registered joined
connection among two open ones. -/
theorem registry_entries_live_and_bounded_witness :
    admissible initState
      [Event.connect 0, Event.userJoined 0 .null, Event.connect 1] = true ∧
    ((∀ k ∈ keysOf (exec initState
        [Event.connect 0, Event.userJoined 0 .null, Event.connect 1]).connectedUsers,
        k ∈ (exec initState
          [Event.connect 0, Event.userJoined 0 .null, Event.connect 1]).connected) ∧
     (keysOf (exec initState
        [Event.connect 0, Event.userJoined 0 .null, Event.connect 1]).connectedUsers).Nodup ∧
     (exec initState
        [Event.connect 0, Event.userJoined 0 .null, Event.connect 1]).connectedUsers.length
       ≤ (exec initState
          [Event.connect 0, Event.userJoined 0 .null, Event.connect 1]).connected.length) :=
  ⟨by decide,
   registry_entries_live_and_bounded
     [Event.connect 0, Event.userJoined 0 .null, Event.connect 1] (by decide)⟩

/-- C4 counterexample: a connection that sends `userJoined` twice is
counted as two joins but occupies one registry entry, so the replayed
size differs from (# joins) − (# disconnects of joined connections). -/
theorem registry_size_join_count_fails :
    admissible initState
      [Event.connect 0, Event.userJoined 0 .null, Event.userJoined 0 .null]
      = true ∧
    ¬((exec initState
        [Event.connect 0, Event.userJoined 0 .null, Event.userJoined 0 .null]).connectedUsers.length
      = countJoins
          [Event.connect 0, Event.userJoined 0 .null, Event.userJoined 0 .null]
        - countDiscJoined initState
          [Event.connect 0, Event.userJoined 0 .null, Event.userJoined 0 .null]) := by
  decide

/-- C4 (amended): for every admissible sequence of connect, userJoined
and disconnect events in which no connection sends `userJoined` while
already registered, the registry size after replay equals the number of
`userJoined` events minus the number of disconnect events of connections
that were registered (had joined) at the time of the disconnect, and
that difference is never negative; repeated joins from one connection
break the count, overwriting instead of inserting. -/
theorem registry_size_join_minus_disconnect (t : List Event)
    (ha : admissible initState t = true)
    (hj : noRejoin initState t = true) :
    (exec initState t).connectedUsers.length
        = countJoins t - countDiscJoined initState t ∧
    countDiscJoined initState t ≤ countJoins t := by
  have hacc := regSize_exec t initState goodState_init ha hj
  have h0 : initState.connectedUsers.length = 0 := rfl
  rw [h0] at hacc
  omega

/-- C4 witness: two clients connect and join, one disconnects; the
registry holds 2 − 1 = 1 entry. -/
theorem registry_size_join_minus_disconnect_witness :
    admissible initState
      [Event.connect 0, Event.userJoined 0 .null, Event.connect 1,
       Event.userJoined 1 .null, Event.disconnect 0] = true ∧
    noRejoin initState
      [Event.connect 0, Event.userJoined 0 .null, Event.connect 1,
       Event.userJoined 1 .null, Event.disconnect 0] = true ∧
    ((exec initState
        [Event.connect 0, Event.userJoined 0 .null, Event.connect 1,
         Event.userJoined 1 .null, Event.disconnect 0]).connectedUsers.length
       = countJoins
           [Event.connect 0, Event.userJoined 0 .null, Event.connect 1,
            Event.userJoined 1 .null, Event.disconnect 0]
         - countDiscJoined initState
           [Event.connect 0, Event.userJoined 0 .null, Event.connect 1,
            Event.userJoined 1 .null, Event.disconnect 0] ∧
     countDiscJoined initState
       [Event.connect 0, Event.userJoined 0 .null, Event.connect 1,
        Event.userJoined 1 .null, Event.disconnect 0]
       ≤ countJoins
           [Event.connect 0, Event.userJoined 0 .null, Event.connect 1,
            Event.userJoined 1 .null, Event.disconnect 0]) :=
  ⟨by decide, by decide,
   registry_size_join_minus_disconnect
     [Event.connect 0, Event.userJoined 0 .null, Event.connect 1,
      Event.userJoined 1 .null, Event.disconnect 0] (by decide) (by decide)⟩

/-- C5: both after a `userJoined` (register) and after a `disconnect`
(unregister) the server broadcasts `onlineUsers` to all currently
connected clients, carrying exactly the registry's size immediately
after the mutation. -/
theorem onlineUsers_broadcast_after_mutation (s : ServerState)
    (sid : SocketId) (u : UserData) (h : sid ∈ s.connected) :
    (step s (.userJoined sid u)).2
      = [.onlineUsers (step s (.userJoined sid u)).1.connected
          (step s (.userJoined sid u)).1.connectedUsers.length] ∧
    (step s (.disconnect sid)).2
      = [.onlineUsers (step s (.disconnect sid)).1.connected
          (step s (.disconnect sid)).1.connectedUsers.length] := by
  constructor <;> simp [step, h]

/-- C5 witness: joining then disconnecting socket 0 in a one-connection
state broadcasts the new size both times. -/
theorem onlineUsers_broadcast_after_mutation_witness :
    (0 : SocketId) ∈ (ServerState.mk [0] []).connected ∧
    ((step (ServerState.mk [0] []) (.userJoined 0 .null)).2
       = [.onlineUsers (step (ServerState.mk [0] []) (.userJoined 0 .null)).1.connected
           (step (ServerState.mk [0] []) (.userJoined 0 .null)).1.connectedUsers.length] ∧
     (step (ServerState.mk [0] []) (.disconnect 0)).2
       = [.onlineUsers (step (ServerState.mk [0] []) (.disconnect 0)).1.connected
           (step (ServerState.mk [0] []) (.disconnect 0)).1.connectedUsers.length]) :=
  ⟨by decide,
   onlineUsers_broadcast_after_mutation (ServerState.mk [0] []) 0 .null (by decide)⟩

/-- C6: a disconnect of a connection that never joined leaves the
registry (hence its size) unchanged and raises no error, and in general
`Map.delete` of an absent key is a no-op on the registry. -/
theorem disconnect_without_join_noop (s : ServerState) (sid : SocketId)
    (h1 : sid ∈ s.connected) (h2 : mapHas s.connectedUsers sid = false) :
    (step s (.disconnect sid)).1.connectedUsers = s.connectedUsers ∧
    (step s (.disconnect sid)).1.connectedUsers.length
        = s.connectedUsers.length ∧
    (∀ (m : List (SocketId × UserData)) (k : SocketId),
        mapHas m k = false → mapDelete m k = m) := by
  have hdel := mapDelete_of_not_has h2
  rw [step_disconnect_state s sid h1]
  exact ⟨hdel, by rw [hdel], fun m k hk => mapDelete_of_not_has hk⟩

/-- C6 witness: socket 1 is connected but unregistered; its disconnect
leaves the registry with its single entry for socket 0. -/
theorem disconnect_without_join_noop_witness :
    (1 : SocketId) ∈ (ServerState.mk [0, 1] [(0, .null)]).connected ∧
    mapHas (ServerState.mk [0, 1] [(0, .null)]).connectedUsers 1 = false ∧
    ((step (ServerState.mk [0, 1] [(0, .null)]) (.disconnect 1)).1.connectedUsers
        = (ServerState.mk [0, 1] [(0, .null)]).connectedUsers ∧
     (step (ServerState.mk [0, 1] [(0, .null)]) (.disconnect 1)).1.connectedUsers.length
        = (ServerState.mk [0, 1] [(0, .null)]).connectedUsers.length ∧
     (∀ (m : List (SocketId × UserData)) (k : SocketId),
        mapHas m k = false → mapDelete m k = m)) :=
  ⟨by decide, by rfl,
   disconnect_without_join_noop (ServerState.mk [0, 1] [(0, .null)]) 1
     (by decide) (by rfl)⟩

/-- C7: register inserts-or-overwrites: a `userJoined` with descriptor
`u` followed by one with `v` from the same connection yields the same
state as the `v` join alone; the repeated join leaves the size unchanged
and the later descriptor wins. -/
theorem register_overwrite_idempotent (s : ServerState) (c : SocketId)
    (u v : UserData) (h : c ∈ s.connected) :
    (step (step s (.userJoined c u)).1 (.userJoined c v)).1
        = (step s (.userJoined c v)).1 ∧
    (step (step s (.userJoined c u)).1 (.userJoined c v)).1.connectedUsers.length
        = (step s (.userJoined c v)).1.connectedUsers.length ∧
    mapGet (step (step s (.userJoined c u)).1
        (.userJoined c v)).1.connectedUsers c = some v := by
  have h1 : c ∈ (step s (.userJoined c u)).1.connected := by
    rw [step_userJoined_state s c u h]; exact h
  rw [step_userJoined_state s c u h,
      step_userJoined_state _ c v (by exact h),
      step_userJoined_state s c v h]
  simp only
  rw [mapSet_mapSet]
  exact ⟨rfl, rfl, mapGet_mapSet _ c v⟩

/-- C7 witness: socket 0 joins twice with different descriptors; the
second descriptor overwrites the first in a single entry. -/
theorem register_overwrite_idempotent_witness :
    (0 : SocketId) ∈ (ServerState.mk [0] []).connected ∧
    ((step (step (ServerState.mk [0] []) (.userJoined 0 (.str "a"))).1
        (.userJoined 0 (.str "b"))).1
        = (step (ServerState.mk [0] []) (.userJoined 0 (.str "b"))).1 ∧
     (step (step (ServerState.mk [0] []) (.userJoined 0 (.str "a"))).1
        (.userJoined 0 (.str "b"))).1.connectedUsers.length
        = (step (ServerState.mk [0] []) (.userJoined 0 (.str "b"))).1.connectedUsers.length ∧
     mapGet (step (step (ServerState.mk [0] []) (.userJoined 0 (.str "a"))).1
        (.userJoined 0 (.str "b"))).1.connectedUsers 0 = some (.str "b")) :=
  ⟨by decide,
   register_overwrite_idempotent (ServerState.mk [0] []) 0 (.str "a")
     (.str "b") (by decide)⟩

/-- C8: `GET /api/users/online` answers 200 with a JSON body whose
`count` field is exactly the registry's size in the state at which the
request is handled. -/
theorem usersOnline_returns_registry_size (s : ServerState) :
    (usersOnlineHandler s).status = 200 ∧
    Json.getField (usersOnlineHandler s).body "count"
      = some (.num s.connectedUsers.length) := by
  exact ⟨rfl, rfl⟩

/-- C9 counterexample: a body that supplies both fields, with
`userId = ""`, is still rejected with 400 "User ID is required" — JS
`!userId` is true for a supplied empty string, so "success exactly when
both fields are supplied" fails. -/
theorem progress_supplied_but_rejected :
    (ProgressBody.mk (some (.str "")) (some (.str "data"))).userId ≠ none ∧
    (ProgressBody.mk (some (.str "")) (some (.str "data"))).progress ≠ none ∧
    (progressHandler
        (ProgressBody.mk (some (.str "")) (some (.str "data")))).status
      = 400 ∧
    Json.getField (progressHandler
        (ProgressBody.mk (some (.str "")) (some (.str "data")))).body "error"
      = some (.str "User ID is required") :=
  ⟨Option.some_ne_none _, Option.some_ne_none _, rfl, rfl⟩

/-- C9 (amended): `POST /api/progress` responds with the success
acknowledgment exactly when both `userId` and `progress` are supplied
with JS-truthy values (missing, `null`, `false`, `0` and `""` are
falsy); otherwise it responds 400 naming the first falsy field, `userId`
checked before `progress`.  The handler is a pure function of the body —
no durable persistence in any case. -/
theorem progress_requires_truthy_fields (b : ProgressBody) :
    (truthyOpt b.userId = false →
      progressHandler b
        = ⟨400, .obj [("error", .str "User ID is required")]⟩) ∧
    (truthyOpt b.userId = true → truthyOpt b.progress = false →
      progressHandler b
        = ⟨400, .obj [("error", .str "Progress data is required")]⟩) ∧
    (truthyOpt b.userId = true → truthyOpt b.progress = true →
      progressHandler b
        = ⟨200, .obj [("success", .bool true),
                      ("message", .str "Progress saved")]⟩) := by
  refine ⟨fun h1 => ?_, fun h1 h2 => ?_, fun h1 h2 => ?_⟩
  · simp [progressHandler, h1]
  · simp [progressHandler, h1, h2]
  · simp [progressHandler, h1, h2]

/-- C9 witness: a body with truthy `userId` and `progress` is
acknowledged with success. -/
theorem progress_requires_truthy_fields_witness :
    truthyOpt (ProgressBody.mk (some (.str "alice"))
        (some (.num 7))).userId = true ∧
    truthyOpt (ProgressBody.mk (some (.str "alice"))
        (some (.num 7))).progress = true ∧
    progressHandler (ProgressBody.mk (some (.str "alice")) (some (.num 7)))
      = ⟨200, .obj [("success", .bool true),
                    ("message", .str "Progress saved")]⟩ :=
  ⟨rfl, rfl,
   (progress_requires_truthy_fields
     (ProgressBody.mk (some (.str "alice")) (some (.num 7)))).2.2 rfl rfl⟩

end StarGuide
